import Mathlib

/-!
Shallow embedding of the query-binding engine of `dbxs` (`src/dbxs/_access.py`)
and proofs about it.

Modelling conventions:
* driver column values are a type parameter `V`; a database row is a `List V`;
  a result set is a `List (List V)`;
* the proxy context object (`db`, the first argument every row loader receives)
  is a type parameter `D`;
* a row loader is `D → List V → Except LoadFailure T`, where `LoadFailure`
  stands for Python's `TypeError` (the only exception class the engine
  intercepts around a loader call);
* Python exceptions raised by the engine are the constructors of `DbError`;
  a raising code path is a function returning `Except (DbError V) _`;
* the asynchronous cursor is explicit state (`CursorState`): its remaining
  unfetched rows plus counters for `fetchone` calls and `close` calls and a
  log of `execute` calls, so that resource-lifecycle claims are statements
  about the final counter values.
-/

namespace Dbxs

/-- Failure raised by a row loader itself; stands for Python's `TypeError`
(for example an arity mismatch between the loader and the row). -/
structure LoadFailure where
  message : String
deriving DecidableEq, Repr

/-- Exceptions of `dbxs._access`, one constructor per exception class used by
the engine.  `paramMismatch` carries the two sides printed by `ParamMismatch`;
`wrongRowShape` carries the two attributed source lines, the offending row and
the original `TypeError` chained as its cause (`raise ... from e`);
`rawTypeError` models a loader `TypeError` escaping without being intercepted
(the engine is supposed never to produce it); `formatError` models a
`ValueError` from `str.format_map` on a malformed template; `bindFailure`
models a `TypeError` from `Signature.bind` at call time. -/
inductive DbError (V : Type) where
  | paramMismatch (placeholders : List String) (params : List String)
  | notEnoughResults
  | tooManyResults (message : String)
  | extraneousMethods (names : List String)
  | wrongRowShape (definitionLine : Nat) (decorationLine : Nat)
      (row : List V) (cause : LoadFailure)
  | rawTypeError (cause : LoadFailure)
  | formatError
  | bindFailure
deriving DecidableEq, Repr

/-- Attribution data captured by `_ExceptionFixer`: the source line of the row
loader's definition and the source line of the query declaration (the frame
below `one` / `maybe` / `many`).  The synthetic frames built from these lines
are abstracted to the line numbers themselves. -/
structure ExceptionFixer where
  definitionLine : Nat
  decorationLine : Nat
deriving DecidableEq, Repr

/-- Model of `_ExceptionFixer.create`: records the loader's definition line
and the declaration-site line, both captured at declaration time. -/
def ExceptionFixer.create (loaderDefinitionLine : Nat) (declarationSiteLine : Nat) :
    ExceptionFixer :=
  { definitionLine := loaderDefinitionLine, decorationLine := declarationSiteLine }

/-- Model of `_ExceptionFixer.reraise`: wraps a loader `TypeError` into a
`WrongRowShape` error carrying the attributed lines, the row, and the original
failure as cause. -/
def ExceptionFixer.reraise {V : Type} (fixer : ExceptionFixer) (row : List V)
    (e : LoadFailure) : DbError V :=
  DbError.wrongRowShape fixer.definitionLine fixer.decorationLine row e

/-- State of one database cursor: the rows the driver has not yet delivered,
a log of the `execute` calls made on it (statement text and positional
parameters), and how many times `fetchone` and `close` have been called. -/
structure CursorState (V : Type) where
  pending : List (List V)
  executed : List (String × List V)
  fetchedOne : Nat
  closed : Nat
deriving DecidableEq, Repr

/-- A freshly opened cursor (`await conn.cursor()`). -/
def newCursor (V : Type) : CursorState V :=
  { pending := [], executed := [], fetchedOne := 0, closed := 0 }

/-- A cursor that has already executed a statement whose result set is `rows`;
used to state properties of the row translators in isolation. -/
def cursorWithRows {V : Type} (rows : List (List V)) : CursorState V :=
  { pending := rows, executed := [], fetchedOne := 0, closed := 0 }

/-- Model of `cursor.execute(sql, args)`: the driver answers the statement
with the result set `resultSet`, which becomes the cursor's pending rows; the
call is logged. -/
def execute {V : Type} (cur : CursorState V) (sql : String) (args : List V)
    (resultSet : List (List V)) : CursorState V :=
  { cur with pending := resultSet, executed := cur.executed ++ [(sql, args)] }

/-- Model of `cursor.fetchone()`: the next pending row, or `none` when the
driver has no more rows. -/
def fetchone {V : Type} (cur : CursorState V) : Option (List V) × CursorState V :=
  match cur.pending with
  | [] => (none, { cur with fetchedOne := cur.fetchedOne + 1 })
  | row :: rest =>
      (some row, { cur with pending := rest, fetchedOne := cur.fetchedOne + 1 })

/-- Model of `cursor.fetchall()`: all remaining pending rows at once. -/
def fetchall {V : Type} (cur : CursorState V) : List (List V) × CursorState V :=
  (cur.pending, { cur with pending := [] })

/-- Model of `cursor.close()`. -/
def close {V : Type} (cur : CursorState V) : CursorState V :=
  { cur with closed := cur.closed + 1 }

/-- Model of `_makeTranslator`: fetch all rows; fewer than one row yields the
`noResults` outcome, more than one raises `TooManyResults`, and exactly one
row is handed to the loader, whose `TypeError` is intercepted and re-raised
through the fixer. -/
def makeTranslator {V D R : Type} (fixer : ExceptionFixer)
    (load : D → List V → Except LoadFailure R) (noResults : Except (DbError V) R)
    (db : D) (cur : CursorState V) : Except (DbError V) R × CursorState V :=
  let fetched := fetchall cur
  match fetched.1 with
  | [] => (noResults, fetched.2)
  | [row] =>
      (match load db row with
       | Except.ok v => Except.ok v
       | Except.error e => Except.error (fixer.reraise row e), fetched.2)
  | _ :: _ :: _ => (Except.error (DbError.tooManyResults ""), fetched.2)

/-- Model of `one`: the `noResults` outcome raises `NotEnoughResults`. -/
def one {V D T : Type} (fixer : ExceptionFixer)
    (load : D → List V → Except LoadFailure T) (db : D) (cur : CursorState V) :
    Except (DbError V) T × CursorState V :=
  makeTranslator fixer load (Except.error DbError.notEnoughResults) db cur

/-- Model of `maybe`: identical to `one` except that the `noResults` outcome
returns `none`; the loader's value is wrapped in `some` to reflect the
`Optional` result type. -/
def maybe {V D T : Type} (fixer : ExceptionFixer)
    (load : D → List V → Except LoadFailure T) (db : D) (cur : CursorState V) :
    Except (DbError V) (Option T) × CursorState V :=
  makeTranslator fixer (fun d r => (load d r).map some) (Except.ok none) db cur

/-- Model of `zero`: fetch one row; any row raises `TooManyResults` (with the
message string of the source, typo included), no row yields no value. -/
def zero {V D : Type} (db : D) (cur : CursorState V) :
    Except (DbError V) Unit × CursorState V :=
  let fetched := fetchone cur
  match fetched.1 with
  | some _ =>
      (Except.error (DbError.tooManyResults "statemnts should not return values"),
       fetched.2)
  | none => (Except.ok (), fetched.2)

/-- Model of the generator returned by `many`, consumed by a caller that pulls
at most `budget` elements before abandoning the iteration.  Each pulled
element costs one `fetchone`; a `None` row ends the sequence; a loader
`TypeError` is re-raised through the fixer and ends the sequence with that
error.  `budget = 0` models immediate abandonment. -/
def translateManyTake {V D T : Type} (fixer : ExceptionFixer)
    (load : D → List V → Except LoadFailure T) (db : D) :
    Nat → CursorState V → (List T × Option (DbError V)) × CursorState V
  | 0, cur => (([], none), cur)
  | Nat.succ budget, cur =>
      let fetched := fetchone cur
      match fetched.1 with
      | none => (([], none), fetched.2)
      | some row =>
          match load db row with
          | Except.error e => (([], some (fixer.reraise row e)), fetched.2)
          | Except.ok v =>
              let rest := translateManyTake fixer load db budget fetched.2
              ((v :: rest.1.1, rest.1.2), rest.2)

/-- Parse state of the template scanner: either in literal text, or inside a
replacement field collecting the characters of its name. -/
inductive FmtMode where
  | text : FmtMode
  | field (acc : List Char) : FmtMode
deriving DecidableEq, Repr

/-- Character-level model of Python `str.format_map` applied to an
`IndexCountingParamstyleMap`, restricted to the fragment the SQL templates
use: literal characters are copied through, and each well-formed
`\x7bname\x7d` field appends `name` to the recorded order (names come out in
substitution order, one entry per occurrence) and emits the dialect's
placeholder `token` in place of the field.  A field left unterminated at the
end of the template is a `ValueError` in Python, modelled as `none`;
brace-escape sequences are outside the modelled fragment. -/
def formatMapAux (token : List Char) :
    List Char → FmtMode → Option (List Char × List String)
  | [], FmtMode.text => some ([], [])
  | [], FmtMode.field _ => none
  | c :: rest, FmtMode.text =>
      if c = '\x7b' then formatMapAux token rest (FmtMode.field [])
      else (formatMapAux token rest FmtMode.text).map (fun p => (c :: p.1, p.2))
  | c :: rest, FmtMode.field acc =>
      if c = '\x7d' then
        (formatMapAux token rest FmtMode.text).map
          (fun p => (token ++ p.1, String.mk acc :: p.2))
      else formatMapAux token rest (FmtMode.field (acc ++ [c]))

/-- Render a template under one dialect: the rendered statement text together
with the placeholder names in the order they were substituted. -/
def formatMap (token : String) (template : String) :
    Option (String × List String) :=
  (formatMapAux token.data template.data FmtMode.text).map
    (fun p => (String.mk p.1, p.2))

/-- One dialect rendering: the styled SQL text and the recorded placeholder
order (`IndexCountingParamstyleMap.names` after `format_map`). -/
structure Rendering where
  styledSQL : String
  names : List String
deriving DecidableEq, Repr

/-- The static dialect table `styles`: paramstyle key and placeholder token. -/
def styles : List (String × String) :=
  [("qmark", "?"), ("pyformat", "%s")]

/-- The `precomputedSQL` dictionary built at the top of `setOn`: one rendering
per supported paramstyle, the loop over `styles` unrolled over its two
entries; `none` if the template is malformed. -/
def precompute (sql : String) : Option (List (String × Rendering)) :=
  match formatMap "?" sql, formatMap "%s" sql with
  | some q, some p =>
      some [("qmark", Rendering.mk q.1 q.2), ("pyformat", Rendering.mk p.1 p.2)]
  | _, _ => none

/-- Python set equality of two name lists (`set(a) == set(b)`). -/
def sameSet (a b : List String) : Bool :=
  a.all (fun x => decide (x ∈ b)) && b.all (fun x => decide (x ∈ a))

/-- Model of the validation part of `QueryMetadata.setOn`: precompute every
dialect rendering, then compare the qmark rendering's recorded names, as a
set, against the method's parameter names with the receiver dropped
(`list(sig.parameters)[1:]`); a mismatch raises `ParamMismatch` naming both
sides, otherwise the precomputed renderings are attached to the method. -/
def setOn (V : Type) (sql : String) (sigNames : List String) :
    Except (DbError V) (List (String × Rendering)) :=
  match precompute sql with
  | none => Except.error DbError.formatError
  | some pre =>
      match pre.lookup "qmark" with
      | none => Except.error DbError.formatError
      | some sample =>
          let selfExcluded := sigNames.drop 1
          if sameSet sample.names selfExcluded then Except.ok pre
          else Except.error (DbError.paramMismatch sample.names selfExcluded)

/-- Lookup of a bound argument by parameter name (`bound.arguments[name]`). -/
def lookupArg {V : Type} : List (String × V) → String → Option V
  | [], _ => none
  | (m, v) :: rest, n => if m = n then some v else lookupArg rest n

/-- Model of `Signature.bind(None, *args, **kw)` restricted to the non-receiver
parameters (the receiver slot is bound to the placeholder `None` and plays no
further role).  `params` lists each parameter's name and optional default, in
declaration order; positional `args` fill the leading parameters, keyword
arguments fill later ones by name.  Too many positional arguments, a
positional/keyword duplicate, an unexpected or leftover keyword, or a missing
parameter that has no default, are all a call-time `TypeError`, modelled as
`none`.  A missing parameter that has a default is simply left unbound, as
`bind` leaves it for `apply_defaults`. -/
def bindArguments {V : Type} :
    List (String × Option V) → List V → List (String × V) →
    Option (List (String × V))
  | [], [], kw => if kw.isEmpty then some [] else none
  | [], _ :: _, _ => none
  | (n, _) :: ps, a :: as, kw =>
      if (lookupArg kw n).isSome then none
      else (bindArguments ps as kw).map (fun b => (n, a) :: b)
  | (n, dflt) :: ps, [], kw =>
      match lookupArg kw n with
      | some v =>
          (bindArguments ps [] (kw.filter (fun q => !(q.1 == n)))).map
            (fun b => (n, v) :: b)
      | none =>
          if dflt.isSome then bindArguments ps [] kw else none

/-- Model of `BoundArguments.apply_defaults()`: rebuild the argument mapping
in parameter order, taking each explicitly bound value and falling back to the
parameter's declared default for the rest. -/
def applyDefaults {V : Type} (params : List (String × Option V))
    (bound : List (String × V)) : List (String × V) :=
  params.filterMap (fun p =>
    match lookupArg bound p.1 with
    | some v => some (p.1, v)
    | none => p.2.map (fun d => (p.1, d)))

/-- Model of `IndexCountingParamstyleMap.queryArguments`: extract the bound
argument value for each recorded placeholder name, in the rendering's recorded
order; a missing name is a `KeyError`, modelled as `none`. -/
def queryArguments {V : Type} (names : List String)
    (bound : List (String × V)) : Option (List V) :=
  match names with
  | [] => some []
  | n :: rest =>
      match lookupArg bound n, queryArguments rest bound with
      | some v, some vs => some (v :: vs)
      | _, _ => none

/-- The argument-preparation prefix of `proxyMethod.body`: bind the call's
arguments against the non-receiver parameters, apply defaults, and extract the
positional parameter list in the rendering's recorded placeholder order. -/
def boundQueryArguments {V : Type} (sig : List (String × Option V))
    (args : List V) (kw : List (String × V)) (names : List String) :
    Option (List V) :=
  match bindArguments (sig.drop 1) args kw with
  | none => none
  | some b => queryArguments names (applyDefaults (sig.drop 1) b)

/-- Model of one call through `proxyMethod.body` on the awaitable path
(`zero`, `one`, `maybe`): open a cursor, bind the arguments (a bind failure
propagates with the cursor open and unclosed), execute the rendering's SQL
with the extracted positional arguments (`resultSet` is the driver's answer),
await the translator, and — only on a successful result — close the cursor
before returning; a translator failure propagates without the close, exactly
as in the source, which has no try/finally around the await. -/
def runSingleCall {V D R : Type} (rendering : Rendering)
    (sig : List (String × Option V))
    (translator : D → CursorState V → Except (DbError V) R × CursorState V)
    (db : D) (args : List V) (kw : List (String × V))
    (resultSet : List (List V)) : Except (DbError V) R × CursorState V :=
  let cur := newCursor V
  match bindArguments (sig.drop 1) args kw with
  | none => (Except.error DbError.bindFailure, cur)
  | some b =>
      match queryArguments rendering.names (applyDefaults (sig.drop 1) b) with
      | none => (Except.error DbError.bindFailure, cur)
      | some qargs =>
          let cur1 := execute cur rendering.styledSQL qargs resultSet
          let res := translator db cur1
          match res.1 with
          | Except.ok v => (Except.ok v, close res.2)
          | Except.error e => (Except.error e, res.2)

/-- Model of one call through `proxyMethod.body` on the async-iterable path
(`many`), consumed through `MaybeAIterable.__aiter__`, whose try/finally
closes the cursor whether the iteration is exhausted, abandoned after
`budget` elements, or ended by a re-raised loader failure.  A bind failure
raises before the `cursor` attribute is assigned, so the finally block cannot
close anything. -/
def runManyCall {V D T : Type} (rendering : Rendering)
    (sig : List (String × Option V)) (fixer : ExceptionFixer)
    (load : D → List V → Except LoadFailure T) (db : D) (args : List V)
    (kw : List (String × V)) (resultSet : List (List V)) (budget : Nat) :
    (List T × Option (DbError V)) × CursorState V :=
  let cur := newCursor V
  match bindArguments (sig.drop 1) args kw with
  | none => (([], some DbError.bindFailure), cur)
  | some b =>
      match queryArguments rendering.names (applyDefaults (sig.drop 1) b) with
      | none => (([], some DbError.bindFailure), cur)
      | some qargs =>
          let cur1 := execute cur rendering.styledSQL qargs resultSet
          let res := translateManyTake fixer load db budget cur1
          (res.1, close res.2)

/-- Model of the loop inside `QueryMetadata.filterProtocolNamespace`: walk the
protocol namespace, collecting the names of members without query metadata
(except those every empty protocol already has) and the members that do carry
metadata, in order. -/
def filterAux {M : Type} (ignored : List String) :
    List (String × Option M) → List String × List (String × M)
  | [] => ([], [])
  | (name, none) :: rest =>
      let p := filterAux ignored rest
      (if ignored.contains name then p.1 else name :: p.1, p.2)
  | (name, some qm) :: rest =>
      let p := filterAux ignored rest
      (p.1, (name, qm) :: p.2)

/-- Model of `QueryMetadata.filterProtocolNamespace`: yield the annotated
members, and raise `ExtraneousMethods` listing every non-annotated,
non-ignored member if there is at least one. -/
def filterProtocolNamespace {V M : Type} (ignored : List String)
    (ns : List (String × Option M)) : Except (DbError V) (List (String × M)) :=
  let p := filterAux ignored ns
  if p.1 = [] then Except.ok p.2 else Except.error (DbError.extraneousMethods p.1)

/-- Model of `accessor`: filter the protocol namespace and build the proxy
type's member table, mapping each annotated member to its bound proxy method
(`pm` extracts `metadata.proxyMethod`); if filtering raises, no proxy type is
produced. -/
def accessorModel {V M C : Type} (pm : M → C) (ignored : List String)
    (ns : List (String × Option M)) : Except (DbError V) (List (String × C)) :=
  match filterProtocolNamespace (V := V) ignored ns with
  | Except.error e => Except.error e
  | Except.ok members => Except.ok (members.map (fun p => (p.1, pm p.2)))

/-- A template segment: literal text or a named replacement field.  This is
the specification-side view of a SQL template, used to state what rendering
is supposed to produce. -/
inductive Seg where
  | lit (s : String) : Seg
  | hole (name : String) : Seg
deriving DecidableEq, Repr

/-- The characters a segment contributes to the template text. -/
def segChars : Seg → List Char
  | Seg.lit s => s.data
  | Seg.hole n => '\x7b' :: (n.data ++ ['\x7d'])

/-- The template text denoted by a segment list. -/
def tplOfSegs (segs : List Seg) : String :=
  String.mk (segs.map segChars).flatten

/-- Specification-side rendering of a segment list under one dialect token:
every field occurrence becomes the token, and the field names are recorded in
order, one entry per occurrence. -/
def renderSegsChars (token : List Char) : List Seg → List Char × List String
  | [] => ([], [])
  | Seg.lit s :: rest =>
      let p := renderSegsChars token rest
      (s.data ++ p.1, p.2)
  | Seg.hole n :: rest =>
      let p := renderSegsChars token rest
      (token ++ p.1, n :: p.2)

/-- String-level specification-side rendering. -/
def renderSegs (token : String) (segs : List Seg) : String × List String :=
  let p := renderSegsChars token.data segs
  (String.mk p.1, p.2)

/-- A string is brace-free. -/
def strOk (s : String) : Bool :=
  s.data.all (fun c => !(c = '\x7b') && !(c = '\x7d'))

/-- Well-formedness of a segment: literal text and field names contain no
brace characters. -/
def segOk : Seg → Bool
  | Seg.lit s => strOk s
  | Seg.hole n => strOk n

/-- Well-formedness of a whole segment list. -/
def segsOk (segs : List Seg) : Bool :=
  segs.all segOk

/-! Helper lemmas. -/

/-- The translator built by `_makeTranslator` produces one of four outcomes:
the `noResults` outcome, `TooManyResults`, a loaded value, or a re-raised
`WrongRowShape`. -/
theorem makeTranslator_cases {V D R : Type} (fixer : ExceptionFixer)
    (load : D → List V → Except LoadFailure R) (nr : Except (DbError V) R)
    (db : D) (cur : CursorState V) :
    (makeTranslator fixer load nr db cur).1 = nr ∨
    (makeTranslator fixer load nr db cur).1 =
      Except.error (DbError.tooManyResults "") ∨
    (∃ v, (makeTranslator fixer load nr db cur).1 = Except.ok v) ∨
    (∃ row e, (makeTranslator fixer load nr db cur).1 =
      Except.error (DbError.wrongRowShape fixer.definitionLine
        fixer.decorationLine row e)) := by
  rcases hp : cur.pending with _ | ⟨row, _ | ⟨row2, rest⟩⟩
  · left
    simp [makeTranslator, fetchall, hp]
  · rcases hl : load db row with e | v
    · right; right; right
      exact ⟨row, e, by simp [makeTranslator, fetchall, hp, hl,
        ExceptionFixer.reraise]⟩
    · right; right; left
      exact ⟨v, by simp [makeTranslator, fetchall, hp, hl]⟩
  · right; left
    simp [makeTranslator, fetchall, hp]

/-- The many-path generator never ends with a raw loader `TypeError` and never
ends with a `ParamMismatch`: its only error outcome is a re-raised
`WrongRowShape`. -/
theorem translateManyTake_error_shape {V D T : Type} (fixer : ExceptionFixer)
    (load : D → List V → Except LoadFailure T) (db : D) :
    ∀ (budget : Nat) (cur : CursorState V),
      (translateManyTake fixer load db budget cur).1.2 = none ∨
      ∃ row e, (translateManyTake fixer load db budget cur).1.2 =
        some (DbError.wrongRowShape fixer.definitionLine
          fixer.decorationLine row e) := by
  intro budget
  induction budget with
  | zero => intro cur; left; rfl
  | succ b ih =>
      intro cur
      rcases hp : cur.pending with _ | ⟨row, rest⟩
      · left
        simp [translateManyTake, fetchone, hp]
      · rcases hl : load db row with e | v
        · right
          exact ⟨row, e, by simp [translateManyTake, fetchone, hp, hl,
            ExceptionFixer.reraise]⟩
        · have hrec := ih
            ({ cur with pending := rest, fetchedOne := cur.fetchedOne + 1 })
          rcases hrec with h | ⟨r2, e2, h⟩
          · left
            simp [translateManyTake, fetchone, hp, hl]
            exact h
          · right
            exact ⟨r2, e2, by simp [translateManyTake, fetchone, hp, hl]; exact h⟩

/-- Running the many-path generator with a budget that exceeds the result set
consumes every row, loads each one, and costs one `fetchone` per row plus the
final `fetchone` that reports the end of the rows. -/
theorem translateManyTake_complete {V D T : Type} (fixer : ExceptionFixer)
    (load : D → List V → Except LoadFailure T) (db : D) :
    ∀ (rows : List (List V)) (budget : Nat) (cur : CursorState V),
      cur.pending = rows → rows.length + 1 ≤ budget →
      (∀ r ∈ rows, ∃ t, load db r = Except.ok t) →
      (translateManyTake fixer load db budget cur).1.2 = none ∧
      ((translateManyTake fixer load db budget cur).1.1.map
        (fun t => (Except.ok t : Except LoadFailure T)) = rows.map (load db)) ∧
      (translateManyTake fixer load db budget cur).2 =
        { cur with pending := [],
                   fetchedOne := cur.fetchedOne + (rows.length + 1) } := by
  intro rows
  induction rows with
  | nil =>
      intro budget cur hp hb hload
      obtain ⟨p, ex, f, cl⟩ := cur
      simp only [CursorState.pending] at hp
      subst hp
      rcases budget with _ | b
      · omega
      · refine ⟨?_, ?_, ?_⟩ <;> simp [translateManyTake, fetchone]
  | cons r rs ih =>
      intro budget cur hp hb hload
      obtain ⟨p, ex, f, cl⟩ := cur
      simp only [CursorState.pending] at hp
      subst hp
      rcases budget with _ | b
      · simp at hb
      · obtain ⟨t, ht⟩ := hload r (List.mem_cons_self r rs)
        have hrec := ih b
          ({ pending := rs, executed := ex, fetchedOne := f + 1, closed := cl })
          rfl (by simp at hb; omega)
          (fun x hx => hload x (List.mem_cons_of_mem r hx))
        refine ⟨?_, ?_, ?_⟩
        · simp [translateManyTake, fetchone, ht]
          exact hrec.1
        · simp [translateManyTake, fetchone, ht]
          exact hrec.2.1
        · simp [translateManyTake, fetchone, ht]
          rw [hrec.2.2]
          simp [CursorState.mk.injEq]
          omega

/-- Running the many-path generator with a budget no larger than the result
set consumes exactly `budget` rows — one `fetchone` per produced element and
nothing more — leaving the rest pending when the consumer abandons. -/
theorem translateManyTake_prefix {V D T : Type} (fixer : ExceptionFixer)
    (load : D → List V → Except LoadFailure T) (db : D) :
    ∀ (budget : Nat) (rows : List (List V)) (cur : CursorState V),
      cur.pending = rows → budget ≤ rows.length →
      (∀ r ∈ rows.take budget, ∃ t, load db r = Except.ok t) →
      (translateManyTake fixer load db budget cur).1.2 = none ∧
      ((translateManyTake fixer load db budget cur).1.1.map
        (fun t => (Except.ok t : Except LoadFailure T)) =
        (rows.take budget).map (load db)) ∧
      (translateManyTake fixer load db budget cur).2 =
        { cur with pending := rows.drop budget,
                   fetchedOne := cur.fetchedOne + budget } := by
  intro budget
  induction budget with
  | zero =>
      intro rows cur hp hb hload
      obtain ⟨p, ex, f, cl⟩ := cur
      simp only [CursorState.pending] at hp
      subst hp
      refine ⟨rfl, by simp [translateManyTake], by simp [translateManyTake]⟩
  | succ b ih =>
      intro rows cur hp hb hload
      rcases rows with _ | ⟨r, rs⟩
      · simp at hb
      · obtain ⟨p, ex, f, cl⟩ := cur
        simp only [CursorState.pending] at hp
        subst hp
        obtain ⟨t, ht⟩ := hload r (by simp [List.take])
        have hrec := ih rs
          ({ pending := rs, executed := ex, fetchedOne := f + 1, closed := cl })
          rfl (by simp at hb; omega)
          (fun x hx => hload x (by simp [List.take]; exact Or.inr hx))
        refine ⟨?_, ?_, ?_⟩
        · simp [translateManyTake, fetchone, ht]
          exact hrec.1
        · simp [translateManyTake, fetchone, ht, List.take]
          rw [← List.map_take]
          exact hrec.2.1
        · simp [translateManyTake, fetchone, ht]
          rw [hrec.2.2]
          simp [CursorState.mk.injEq, List.drop]
          omega

/-! Claim theorems. -/

/-- Claim C2: a one-cardinality query fails with `NotEnoughResults` on zero
rows and with `TooManyResults` on two or more rows, and returns the row
loader's value on exactly one row; a maybe-cardinality query behaves
identically except that zero rows returns `none` instead of failing. -/
theorem claim2_one_maybe_cardinality {V D T : Type} (fixer : ExceptionFixer)
    (load : D → List V → Except LoadFailure T) (db : D) (row : List V) (t : T)
    (rows : List (List V)) (hone : load db row = Except.ok t)
    (hmany : 2 ≤ rows.length) :
    (one fixer load db (cursorWithRows ([] : List (List V)))).1 =
      Except.error DbError.notEnoughResults ∧
    (maybe fixer load db (cursorWithRows ([] : List (List V)))).1 =
      Except.ok none ∧
    (one fixer load db (cursorWithRows [row])).1 = Except.ok t ∧
    (maybe fixer load db (cursorWithRows [row])).1 = Except.ok (some t) ∧
    (one fixer load db (cursorWithRows rows)).1 =
      Except.error (DbError.tooManyResults "") ∧
    (maybe fixer load db (cursorWithRows rows)).1 =
      Except.error (DbError.tooManyResults "") := by
  rcases rows with _ | ⟨r1, _ | ⟨r2, rest⟩⟩
  · simp at hmany
  · simp at hmany
  · refine ⟨?_, ?_, ?_, ?_, ?_, ?_⟩ <;>
      simp [one, maybe, makeTranslator, fetchall, cursorWithRows, hone,
        Except.map]

/-- Witness for C2 at a concrete loader and result sets. -/
theorem claim2_witness :
    (one (ExceptionFixer.create 1 2)
      (fun (_ : Unit) (_ : List Nat) => Except.ok 5) ()
      (cursorWithRows ([] : List (List Nat)))).1 =
      Except.error DbError.notEnoughResults ∧
    (maybe (ExceptionFixer.create 1 2)
      (fun (_ : Unit) (_ : List Nat) => Except.ok 5) ()
      (cursorWithRows ([] : List (List Nat)))).1 = Except.ok none ∧
    (one (ExceptionFixer.create 1 2)
      (fun (_ : Unit) (_ : List Nat) => Except.ok 5) ()
      (cursorWithRows [[3]])).1 = Except.ok 5 ∧
    (maybe (ExceptionFixer.create 1 2)
      (fun (_ : Unit) (_ : List Nat) => Except.ok 5) ()
      (cursorWithRows [[3]])).1 = Except.ok (some 5) ∧
    (one (ExceptionFixer.create 1 2)
      (fun (_ : Unit) (_ : List Nat) => Except.ok 5) ()
      (cursorWithRows [[1], [2]])).1 =
      Except.error (DbError.tooManyResults "") ∧
    (maybe (ExceptionFixer.create 1 2)
      (fun (_ : Unit) (_ : List Nat) => Except.ok 5) ()
      (cursorWithRows [[1], [2]])).1 =
      Except.error (DbError.tooManyResults "") :=
  claim2_one_maybe_cardinality (ExceptionFixer.create 1 2)
    (fun _ _ => Except.ok 5) () [3] 5 [[1], [2]] rfl (by decide)

/-- Claim C9: a zero-cardinality statement performs exactly one `fetchone`
(so it fetches at most one row, leaving every later row unfetched), fails
with `TooManyResults` if the statement produced any row, and completes with
no value if it produced none. -/
theorem claim9_zero_statement {V D : Type} (db : D) (rows : List (List V)) :
    (zero db (cursorWithRows rows)).1 =
      (if rows.isEmpty then Except.ok ()
       else Except.error
         (DbError.tooManyResults "statemnts should not return values")) ∧
    (zero db (cursorWithRows rows)).2.fetchedOne = 1 ∧
    (zero db (cursorWithRows rows)).2.pending = rows.drop 1 := by
  rcases rows with _ | ⟨r, rest⟩ <;>
    simp [zero, fetchone, cursorWithRows]

/-- Claim C5: when the row loader rejects its row, the call fails with a
`WrongRowShape` error that carries the original failure as its cause and the
two source lines captured at declaration time (the loader's definition site
and the query's annotation site), on the one-, maybe- and many-cardinality
paths alike; and no path ever surfaces the raw loader `TypeError`. -/
theorem claim5_row_shape_error {V D T : Type} (defLine decLine : Nat)
    (load : D → List V → Except LoadFailure T) (db : D) (row : List V)
    (cause : LoadFailure) (rows : List (List V)) (c : LoadFailure)
    (budget : Nat) (h : load db row = Except.error cause) :
    (one (ExceptionFixer.create defLine decLine) load db
      (cursorWithRows [row])).1 =
      Except.error (DbError.wrongRowShape defLine decLine row cause) ∧
    (maybe (ExceptionFixer.create defLine decLine) load db
      (cursorWithRows [row])).1 =
      Except.error (DbError.wrongRowShape defLine decLine row cause) ∧
    (translateManyTake (ExceptionFixer.create defLine decLine) load db
      (budget + 1) (cursorWithRows (row :: rows))).1 =
      ([], some (DbError.wrongRowShape defLine decLine row cause)) ∧
    (one (ExceptionFixer.create defLine decLine) load db
      (cursorWithRows rows)).1 ≠ Except.error (DbError.rawTypeError c) ∧
    (maybe (ExceptionFixer.create defLine decLine) load db
      (cursorWithRows rows)).1 ≠ Except.error (DbError.rawTypeError c) ∧
    (translateManyTake (ExceptionFixer.create defLine decLine) load db budget
      (cursorWithRows rows)).1.2 ≠ some (DbError.rawTypeError c) := by
  refine ⟨?_, ?_, ?_, ?_, ?_, ?_⟩
  · simp [one, makeTranslator, fetchall, cursorWithRows, h,
      ExceptionFixer.reraise, ExceptionFixer.create]
  · simp [maybe, makeTranslator, fetchall, cursorWithRows, h,
      ExceptionFixer.reraise, ExceptionFixer.create, Except.map]
  · simp [translateManyTake, fetchone, cursorWithRows, h,
      ExceptionFixer.reraise, ExceptionFixer.create]
  · rcases makeTranslator_cases (ExceptionFixer.create defLine decLine) load
      (Except.error DbError.notEnoughResults) db (cursorWithRows rows) with
      h1 | h1 | ⟨v, h1⟩ | ⟨r2, e2, h1⟩ <;> simp [one, h1]
  · rcases makeTranslator_cases (ExceptionFixer.create defLine decLine)
      (fun d r => (load d r).map some) (Except.ok (none : Option T)) db
      (cursorWithRows rows) with h1 | h1 | ⟨v, h1⟩ | ⟨r2, e2, h1⟩ <;>
      simp [maybe, h1]
  · rcases translateManyTake_error_shape (ExceptionFixer.create defLine decLine)
      load db budget (cursorWithRows rows) with h1 | ⟨r2, e2, h1⟩ <;> simp [h1]

/-- Witness for C5 at a concrete always-failing loader. -/
theorem claim5_witness :
    (one (ExceptionFixer.create 11 22)
      (fun (_ : Unit) (_ : List Nat) =>
        (Except.error (LoadFailure.mk "arity") : Except LoadFailure Nat)) ()
      (cursorWithRows [[3, 4]])).1 =
      Except.error (DbError.wrongRowShape 11 22 [3, 4]
        (LoadFailure.mk "arity")) ∧
    (maybe (ExceptionFixer.create 11 22)
      (fun (_ : Unit) (_ : List Nat) =>
        (Except.error (LoadFailure.mk "arity") : Except LoadFailure Nat)) ()
      (cursorWithRows [[3, 4]])).1 =
      Except.error (DbError.wrongRowShape 11 22 [3, 4]
        (LoadFailure.mk "arity")) ∧
    (translateManyTake (ExceptionFixer.create 11 22)
      (fun (_ : Unit) (_ : List Nat) =>
        (Except.error (LoadFailure.mk "arity") : Except LoadFailure Nat)) ()
      (2 + 1) (cursorWithRows ([3, 4] :: [[9]]))).1 =
      ([], some (DbError.wrongRowShape 11 22 [3, 4]
        (LoadFailure.mk "arity"))) ∧
    (one (ExceptionFixer.create 11 22)
      (fun (_ : Unit) (_ : List Nat) =>
        (Except.error (LoadFailure.mk "arity") : Except LoadFailure Nat)) ()
      (cursorWithRows [[9]])).1 ≠
      Except.error (DbError.rawTypeError (LoadFailure.mk "arity")) ∧
    (maybe (ExceptionFixer.create 11 22)
      (fun (_ : Unit) (_ : List Nat) =>
        (Except.error (LoadFailure.mk "arity") : Except LoadFailure Nat)) ()
      (cursorWithRows [[9]])).1 ≠
      Except.error (DbError.rawTypeError (LoadFailure.mk "arity")) ∧
    (translateManyTake (ExceptionFixer.create 11 22)
      (fun (_ : Unit) (_ : List Nat) =>
        (Except.error (LoadFailure.mk "arity") : Except LoadFailure Nat)) ()
      2 (cursorWithRows [[9]])).1.2 ≠
      some (DbError.rawTypeError (LoadFailure.mk "arity")) :=
  claim5_row_shape_error 11 22
    (fun _ _ => Except.error (LoadFailure.mk "arity")) () [3, 4]
    (LoadFailure.mk "arity") [[9]] (LoadFailure.mk "arity") 2 rfl

/-- A single-value proxy call can only fail with `bindFailure` (from the
argument-preparation steps) or with an error its translator produced. -/
theorem runSingleCall_not_error {V D R : Type} (rendering : Rendering)
    (sig : List (String × Option V))
    (translator : D → CursorState V → Except (DbError V) R × CursorState V)
    (db : D) (args : List V) (kw : List (String × V))
    (resultSet : List (List V)) (err : DbError V)
    (hne : err ≠ DbError.bindFailure)
    (htr : ∀ cur, (translator db cur).1 ≠ Except.error err) :
    (runSingleCall rendering sig translator db args kw resultSet).1 ≠
      Except.error err := by
  rcases hb : bindArguments (sig.drop 1) args kw with _ | b <;>
    simp only [List.drop_one] at hb
  · simp [runSingleCall, hb]
    intro h
    exact hne h.symm
  · rcases hq : queryArguments rendering.names (applyDefaults (sig.drop 1) b)
      with _ | qargs <;> simp only [List.drop_one] at hq
    · simp [runSingleCall, hb, hq]
      intro h
      exact hne h.symm
    · rcases ht : (translator db
        (execute (newCursor V) rendering.styledSQL qargs resultSet)).1
        with e | v
      · simp [runSingleCall, hb, hq, ht]
        intro h
        subst h
        exact htr _ ht
      · simp [runSingleCall, hb, hq, ht]

/-- The translator of a one-cardinality query never raises `ParamMismatch`. -/
theorem one_not_paramMismatch {V D T : Type} (fixer : ExceptionFixer)
    (load : D → List V → Except LoadFailure T) (db : D) (cur : CursorState V)
    (a b : List String) :
    (one fixer load db cur).1 ≠ Except.error (DbError.paramMismatch a b) := by
  rcases makeTranslator_cases fixer load
    (Except.error (DbError.notEnoughResults : DbError V)) db cur with
    h | h | ⟨v, h⟩ | ⟨r, e, h⟩ <;> simp [one, h]

/-- The translator of a maybe-cardinality query never raises
`ParamMismatch`. -/
theorem maybe_not_paramMismatch {V D T : Type} (fixer : ExceptionFixer)
    (load : D → List V → Except LoadFailure T) (db : D) (cur : CursorState V)
    (a b : List String) :
    (maybe fixer load db cur).1 ≠ Except.error (DbError.paramMismatch a b) := by
  rcases makeTranslator_cases fixer (fun d r => (load d r).map some)
    (Except.ok (none : Option T) : Except (DbError V) (Option T)) db cur with
    h | h | ⟨v, h⟩ | ⟨r, e, h⟩ <;> simp [maybe, h]

/-- The zero-cardinality translator never raises `ParamMismatch`. -/
theorem zero_not_paramMismatch {V D : Type} (db : D) (cur : CursorState V)
    (a b : List String) :
    (zero db cur).1 ≠ Except.error (DbError.paramMismatch a b) := by
  rcases hp : cur.pending with _ | ⟨r, rest⟩ <;> simp [zero, fetchone, hp]

/-- Claim C3: for a query declaration over a well-formed template, `setOn`
accepts exactly when the qmark rendering's placeholder-name set equals the
method's parameter-name set with the receiver excluded, and otherwise raises
`ParamMismatch` naming both sides — all at declaration time; and no
call-time path (one-, maybe-, zero- or many-cardinality) can ever produce a
`ParamMismatch`. -/
theorem claim3_param_mismatch {V D T : Type} (sql : String)
    (sigNames : List String) (qs ps : String) (qn pn : List String)
    (rendering : Rendering) (sig : List (String × Option V))
    (fixer : ExceptionFixer) (load : D → List V → Except LoadFailure T)
    (db : D) (args : List V) (kw : List (String × V))
    (resultSet : List (List V)) (a b : List String) (budget : Nat)
    (hq : formatMap "?" sql = some (qs, qn))
    (hp : formatMap "%s" sql = some (ps, pn)) :
    setOn V sql sigNames =
      (if sameSet qn (sigNames.drop 1) then
        Except.ok [("qmark", Rendering.mk qs qn),
                   ("pyformat", Rendering.mk ps pn)]
       else Except.error (DbError.paramMismatch qn (sigNames.drop 1))) ∧
    (runSingleCall rendering sig (one fixer load) db args kw resultSet).1 ≠
      Except.error (DbError.paramMismatch a b) ∧
    (runSingleCall rendering sig (maybe fixer load) db args kw
      resultSet).1 ≠ Except.error (DbError.paramMismatch a b) ∧
    (runSingleCall rendering sig (zero (V := V) (D := D)) db args kw
      resultSet).1 ≠ Except.error (DbError.paramMismatch a b) ∧
    (runManyCall rendering sig fixer load db args kw resultSet budget).1.2 ≠
      some (DbError.paramMismatch a b) := by
  refine ⟨?_, ?_, ?_, ?_, ?_⟩
  · simp [setOn, precompute, hq, hp, List.lookup]
  · exact runSingleCall_not_error rendering sig (one fixer load) db args kw
      resultSet (DbError.paramMismatch a b) (by simp)
      (fun cur => one_not_paramMismatch fixer load db cur a b)
  · exact runSingleCall_not_error rendering sig (maybe fixer load) db args kw
      resultSet (DbError.paramMismatch a b) (by simp)
      (fun cur => maybe_not_paramMismatch fixer load db cur a b)
  · exact runSingleCall_not_error rendering sig (zero (V := V) (D := D)) db
      args kw resultSet (DbError.paramMismatch a b) (by simp)
      (fun cur => zero_not_paramMismatch db cur a b)
  · rcases hb : bindArguments (sig.drop 1) args kw with _ | bd <;>
      simp only [List.drop_one] at hb
    · simp [runManyCall, hb]
    · rcases hqa : queryArguments rendering.names
        (applyDefaults (sig.drop 1) bd) with _ | qargs <;>
        simp only [List.drop_one] at hqa
      · simp [runManyCall, hb, hqa]
      · rcases translateManyTake_error_shape fixer load db budget
          (execute (newCursor V) rendering.styledSQL qargs resultSet) with
          h | ⟨r, e, h⟩ <;> simp [runManyCall, hb, hqa, h]

/-- Witness for C3 at a concrete accepted declaration, a concrete rejected
declaration being exercised through the same theorem's if-then-else, and a
concrete call. -/
theorem claim3_witness :
    setOn Nat "SELECT name FROM users WHERE id = {userId}" ["self", "userId"] =
      (if sameSet ["userId"] (["self", "userId"].drop 1) then
        Except.ok [("qmark",
          Rendering.mk "SELECT name FROM users WHERE id = ?" ["userId"]),
          ("pyformat",
            Rendering.mk "SELECT name FROM users WHERE id = %s" ["userId"])]
       else Except.error
         (DbError.paramMismatch ["userId"] (["self", "userId"].drop 1))) ∧
    (runSingleCall (Rendering.mk "SELECT name FROM users WHERE id = ?"
        ["userId"]) ([("self", none), ("userId", none)] :
        List (String × Option Nat))
      (one (ExceptionFixer.create 3 4)
        (fun (_ : Unit) (_ : List Nat) => Except.ok 0)) () [7] []
      [[1]]).1 ≠ Except.error (DbError.paramMismatch ["x"] ["y"]) ∧
    (runSingleCall (Rendering.mk "SELECT name FROM users WHERE id = ?"
        ["userId"]) ([("self", none), ("userId", none)] :
        List (String × Option Nat))
      (maybe (ExceptionFixer.create 3 4)
        (fun (_ : Unit) (_ : List Nat) => Except.ok 0)) () [7] []
      [[1]]).1 ≠ Except.error (DbError.paramMismatch ["x"] ["y"]) ∧
    (runSingleCall (Rendering.mk "SELECT name FROM users WHERE id = ?"
        ["userId"]) ([("self", none), ("userId", none)] :
        List (String × Option Nat))
      (zero (V := Nat) (D := Unit)) () [7] [] [[1]]).1 ≠
      Except.error (DbError.paramMismatch ["x"] ["y"]) ∧
    (runManyCall (Rendering.mk "SELECT name FROM users WHERE id = ?"
        ["userId"]) ([("self", none), ("userId", none)] :
        List (String × Option Nat)) (ExceptionFixer.create 3 4)
      (fun (_ : Unit) (_ : List Nat) => Except.ok 0) () [7] [] [[1]]
      2).1.2 ≠ some (DbError.paramMismatch ["x"] ["y"]) :=
  claim3_param_mismatch "SELECT name FROM users WHERE id = {userId}"
    ["self", "userId"] "SELECT name FROM users WHERE id = ?"
    "SELECT name FROM users WHERE id = %s" ["userId"] ["userId"]
    (Rendering.mk "SELECT name FROM users WHERE id = ?" ["userId"])
    ([("self", none), ("userId", none)] : List (String × Option Nat))
    (ExceptionFixer.create 3 4)
    (fun (_ : Unit) (_ : List Nat) => Except.ok 0) () [7] [] [[1]]
    ["x"] ["y"] 2 rfl rfl

/-- Claim C4: over a finite result set, a many-cardinality query consumed to
exhaustion yields exactly one element per underlying row — the row loader
applied to that row's values, in the driver's row order — at the cost of one
`fetchone` per produced element plus the final `fetchone` on which the driver
reports no more rows and the sequence terminates; and a consumer that stops
after `budget2` elements has advanced the cursor exactly `budget2` times,
one `fetchone` per element, with later rows still unfetched. -/
theorem claim4_many_streams {V D T : Type} (fixer : ExceptionFixer)
    (load : D → List V → Except LoadFailure T) (db : D)
    (rows : List (List V)) (budget budget2 : Nat)
    (hb : rows.length + 1 ≤ budget) (hb2 : budget2 ≤ rows.length)
    (hload : ∀ r ∈ rows, ∃ t, load db r = Except.ok t) :
    (translateManyTake fixer load db budget (cursorWithRows rows)).1.2 =
      none ∧
    ((translateManyTake fixer load db budget (cursorWithRows rows)).1.1.map
      (fun t => (Except.ok t : Except LoadFailure T)) =
      rows.map (load db)) ∧
    (translateManyTake fixer load db budget
      (cursorWithRows rows)).1.1.length = rows.length ∧
    (translateManyTake fixer load db budget
      (cursorWithRows rows)).2.fetchedOne = rows.length + 1 ∧
    (translateManyTake fixer load db budget
      (cursorWithRows rows)).2.pending = [] ∧
    ((translateManyTake fixer load db budget2 (cursorWithRows rows)).1.1.map
      (fun t => (Except.ok t : Except LoadFailure T)) =
      (rows.take budget2).map (load db)) ∧
    (translateManyTake fixer load db budget2
      (cursorWithRows rows)).1.1.length = budget2 ∧
    (translateManyTake fixer load db budget2
      (cursorWithRows rows)).2.fetchedOne = budget2 ∧
    (translateManyTake fixer load db budget2
      (cursorWithRows rows)).2.pending = rows.drop budget2 := by
  have hc := translateManyTake_complete fixer load db rows budget
    (cursorWithRows rows) rfl hb hload
  have hpfx := translateManyTake_prefix fixer load db budget2 rows
    (cursorWithRows rows) rfl hb2
    (fun x hx => hload x (List.take_subset budget2 rows hx))
  have hlen : (translateManyTake fixer load db budget
      (cursorWithRows rows)).1.1.length = rows.length := by
    have := congrArg List.length hc.2.1
    simpa using this
  have hlen2 : (translateManyTake fixer load db budget2
      (cursorWithRows rows)).1.1.length = budget2 := by
    have := congrArg List.length hpfx.2.1
    simp at this
    omega
  refine ⟨hc.1, hc.2.1, hlen, ?_, ?_, hpfx.2.1, hlen2, ?_, ?_⟩
  · rw [hc.2.2]; simp [cursorWithRows]
  · rw [hc.2.2]
  · rw [hpfx.2.2]; simp [cursorWithRows]
  · rw [hpfx.2.2]

/-- Witness for C4 at a concrete two-row result set, full consumption with
budget 3 and abandonment after one element. -/
theorem claim4_witness :
    (translateManyTake (ExceptionFixer.create 1 2)
      (fun (_ : Unit) (r : List Nat) => Except.ok r.length) () 3
      (cursorWithRows [[4], [5, 6]])).1.2 = none ∧
    ((translateManyTake (ExceptionFixer.create 1 2)
      (fun (_ : Unit) (r : List Nat) => Except.ok r.length) () 3
      (cursorWithRows [[4], [5, 6]])).1.1.map
      (fun t => (Except.ok t : Except LoadFailure Nat)) =
      [[4], [5, 6]].map ((fun (_ : Unit) (r : List Nat) =>
        (Except.ok r.length : Except LoadFailure Nat)) ())) ∧
    (translateManyTake (ExceptionFixer.create 1 2)
      (fun (_ : Unit) (r : List Nat) => Except.ok r.length) () 3
      (cursorWithRows [[4], [5, 6]])).1.1.length = 2 ∧
    (translateManyTake (ExceptionFixer.create 1 2)
      (fun (_ : Unit) (r : List Nat) => Except.ok r.length) () 3
      (cursorWithRows [[4], [5, 6]])).2.fetchedOne = 2 + 1 ∧
    (translateManyTake (ExceptionFixer.create 1 2)
      (fun (_ : Unit) (r : List Nat) => Except.ok r.length) () 3
      (cursorWithRows [[4], [5, 6]])).2.pending = [] ∧
    ((translateManyTake (ExceptionFixer.create 1 2)
      (fun (_ : Unit) (r : List Nat) => Except.ok r.length) () 1
      (cursorWithRows [[4], [5, 6]])).1.1.map
      (fun t => (Except.ok t : Except LoadFailure Nat)) =
      ([[4], [5, 6]].take 1).map ((fun (_ : Unit) (r : List Nat) =>
        (Except.ok r.length : Except LoadFailure Nat)) ())) ∧
    (translateManyTake (ExceptionFixer.create 1 2)
      (fun (_ : Unit) (r : List Nat) => Except.ok r.length) () 1
      (cursorWithRows [[4], [5, 6]])).1.1.length = 1 ∧
    (translateManyTake (ExceptionFixer.create 1 2)
      (fun (_ : Unit) (r : List Nat) => Except.ok r.length) () 1
      (cursorWithRows [[4], [5, 6]])).2.fetchedOne = 1 ∧
    (translateManyTake (ExceptionFixer.create 1 2)
      (fun (_ : Unit) (r : List Nat) => Except.ok r.length) () 1
      (cursorWithRows [[4], [5, 6]])).2.pending = [[4], [5, 6]].drop 1 :=
  claim4_many_streams (ExceptionFixer.create 1 2)
    (fun _ r => Except.ok r.length) () [[4], [5, 6]] 3 1 (by decide)
    (by decide) (fun r _ => ⟨r.length, rfl⟩)

/-- The extraneous-name component of the namespace walk is exactly the list
of non-annotated, non-ignored member names, in namespace order. -/
theorem filterAux_fst {M : Type} (ignored : List String) :
    ∀ ns : List (String × Option M),
      (filterAux ignored ns).1 =
        (ns.filter (fun p => p.2.isNone && !(ignored.contains p.1))).map
          Prod.fst := by
  intro ns
  induction ns with
  | nil => rfl
  | cons hd tl ih =>
      obtain ⟨name, v⟩ := hd
      rcases v with _ | qm
      · by_cases hmem : name ∈ ignored <;>
          simp [filterAux, hmem, List.filter, ih]
      · simp [filterAux, List.filter, ih]

/-- The annotated-member component of the namespace walk is exactly the list
of members carrying metadata, in namespace order. -/
theorem filterAux_snd {M : Type} (ignored : List String) :
    ∀ ns : List (String × Option M),
      (filterAux ignored ns).2 =
        ns.filterMap (fun p => p.2.map (fun m => (p.1, m))) := by
  intro ns
  induction ns with
  | nil => rfl
  | cons hd tl ih =>
      obtain ⟨name, v⟩ := hd
      rcases v with _ | qm
      · by_cases hmem : name ∈ ignored <;>
          simp [filterAux, hmem, List.filterMap, ih]
      · simp [filterAux, List.filterMap, ih]

/-- Claim C6: building an accessor over an interface namespace fails with
`ExtraneousMethods` naming exactly the members that carry no query metadata
(and are not baseline protocol attributes) whenever there is at least one
such member, and produces no member table in that case; an interface whose
every member is annotated yields exactly the table of bound proxy methods,
one per annotated member, in order. -/
theorem claim6_extraneous_methods {V M C : Type} (pm : M → C)
    (ignored : List String) (ns : List (String × Option M)) :
    accessorModel (V := V) pm ignored ns =
      (if ((ns.filter (fun p => p.2.isNone && !(ignored.contains p.1))).map
            Prod.fst) = [] then
        Except.ok ((ns.filterMap (fun p =>
          p.2.map (fun m => (p.1, m)))).map (fun p => (p.1, pm p.2)))
       else Except.error (DbError.extraneousMethods
         ((ns.filter (fun p => p.2.isNone && !(ignored.contains p.1))).map
           Prod.fst))) := by
  unfold accessorModel filterProtocolNamespace
  rw [← filterAux_fst ignored ns, ← filterAux_snd ignored ns]
  by_cases h : (filterAux ignored ns).1 = [] <;> simp [h]

/-- Rebuilding a string from its character list is the identity. -/
theorem stringMk_data (s : String) : String.mk s.data = s := rfl

/-- Scanning brace-free literal text copies it through unchanged. -/
theorem formatMapAux_text_append (token : List Char) :
    ∀ (s rest : List Char),
      (∀ c ∈ s, c ≠ '\x7b' ∧ c ≠ '\x7d') →
      formatMapAux token (s ++ rest) FmtMode.text =
        (formatMapAux token rest FmtMode.text).map
          (fun p => (s ++ p.1, p.2)) := by
  intro s
  induction s with
  | nil =>
      intro rest h
      rcases hr : formatMapAux token rest FmtMode.text with _ | p <;> simp [hr]
  | cons c cs ih =>
      intro rest h
      have hc := h c (List.mem_cons_self c cs)
      have ihr := ih rest (fun x hx => h x (List.mem_cons_of_mem c hx))
      simp only [List.cons_append, formatMapAux, if_neg hc.1, List.append_eq]
      rw [ihr]
      rcases hr : formatMapAux token rest FmtMode.text with _ | p <;> simp [hr]

/-- Scanning a terminated field collects its name, emits the token, and
resumes in text mode. -/
theorem formatMapAux_field (token : List Char) :
    ∀ (n acc rest : List Char),
      (∀ c ∈ n, c ≠ '\x7d') →
      formatMapAux token (n ++ '\x7d' :: rest) (FmtMode.field acc) =
        (formatMapAux token rest FmtMode.text).map
          (fun p => (token ++ p.1, String.mk (acc ++ n) :: p.2)) := by
  intro n
  induction n with
  | nil =>
      intro acc rest h
      simp [formatMapAux]
  | cons c cs ih =>
      intro acc rest h
      have hc := h c (List.mem_cons_self c cs)
      simp only [List.cons_append, formatMapAux, if_neg hc, List.append_eq]
      rw [ih (acc ++ [c]) rest (fun x hx => h x (List.mem_cons_of_mem c hx))]
      simp

/-- The scanner agrees with the specification-side segment rendering on every
well-formed template. -/
theorem formatMap_segs (token : List Char) :
    ∀ segs : List Seg, segsOk segs = true →
      formatMapAux token (segs.map segChars).flatten FmtMode.text =
        some (renderSegsChars token segs) := by
  intro segs
  induction segs with
  | nil => intro h; rfl
  | cons sg rest ih =>
      intro h
      simp only [segsOk, List.all_cons, Bool.and_eq_true] at h
      have ihr := ih h.2
      rcases sg with s | n
      · have hs : ∀ c ∈ s.data, c ≠ '\x7b' ∧ c ≠ '\x7d' := by
          intro c hc
          have := h.1
          simp only [segOk, strOk, List.all_eq_true] at this
          have h2 := this c hc
          simpa using h2
        simp only [List.map_cons, List.flatten_cons, segChars]
        rw [formatMapAux_text_append token s.data _ hs, ihr]
        simp [renderSegsChars]
      · have hn : ∀ c ∈ n.data, c ≠ '\x7d' := by
          intro c hc
          have := h.1
          simp only [segOk, strOk, List.all_eq_true] at this
          have h2 := this c hc
          simp at h2
          exact h2.2
        have hsh : (List.map segChars (Seg.hole n :: rest)).flatten =
            '\x7b' :: (n.data ++ '\x7d' ::
              (List.map segChars rest).flatten) := by
          simp [segChars]
        rw [hsh]
        rw [show formatMapAux token ('\x7b' :: (n.data ++ '\x7d' ::
            (List.map segChars rest).flatten)) FmtMode.text =
            formatMapAux token (n.data ++ '\x7d' ::
              (List.map segChars rest).flatten) (FmtMode.field []) from rfl]
        rw [formatMapAux_field token n.data [] _ hn, ihr]
        simp [renderSegsChars, stringMk_data]

/-- String-level corollary: rendering a well-formed template substitutes
every field and records the names in substitution order. -/
theorem formatMap_tplOfSegs (token : String) (segs : List Seg)
    (h : segsOk segs = true) :
    formatMap token (tplOfSegs segs) = some (renderSegs token segs) := by
  unfold formatMap tplOfSegs renderSegs
  rw [show (String.mk (segs.map segChars).flatten).data =
    (segs.map segChars).flatten from rfl]
  rw [formatMap_segs token.data segs h]
  rfl

/-- Claim C7: on every template made of brace-free literal text and named
fields, each supported dialect's rendering replaces every field occurrence
with that dialect's token (`?` for qmark, `%s` for pyformat) and records the
names in substitution order, one entry per occurrence even for repeated
names; in particular the template `SELECT name FROM users WHERE id =
\x7buserId\x7d` renders under qmark to `SELECT name FROM users WHERE id = ?`
with placeholder order `[userId]`, and a call binding `userId` to `7`
extracts the positional argument list `[7]`. -/
theorem claim7_placeholder_rendering (segs : List Seg)
    (h : segsOk segs = true) :
    formatMap "?" (tplOfSegs segs) = some (renderSegs "?" segs) ∧
    formatMap "%s" (tplOfSegs segs) = some (renderSegs "%s" segs) ∧
    formatMap "?" "SELECT name FROM users WHERE id = {userId}" =
      some ("SELECT name FROM users WHERE id = ?", ["userId"]) ∧
    queryArguments ["userId"] [("userId", (7 : Nat))] = some [7] ∧
    boundQueryArguments
      ([("self", none), ("userId", none)] : List (String × Option Nat))
      [7] [] ["userId"] = some [7] := by
  refine ⟨formatMap_tplOfSegs "?" segs h, formatMap_tplOfSegs "%s" segs h,
    ?_, rfl, rfl⟩
  rfl

/-- Witness for C7 at the concrete template of the claim, decomposed into its
two segments. -/
theorem claim7_witness :
    formatMap "?"
      (tplOfSegs [Seg.lit "SELECT name FROM users WHERE id = ",
        Seg.hole "userId"]) =
      some (renderSegs "?" [Seg.lit "SELECT name FROM users WHERE id = ",
        Seg.hole "userId"]) ∧
    formatMap "%s"
      (tplOfSegs [Seg.lit "SELECT name FROM users WHERE id = ",
        Seg.hole "userId"]) =
      some (renderSegs "%s" [Seg.lit "SELECT name FROM users WHERE id = ",
        Seg.hole "userId"]) ∧
    formatMap "?" "SELECT name FROM users WHERE id = {userId}" =
      some ("SELECT name FROM users WHERE id = ?", ["userId"]) ∧
    queryArguments ["userId"] [("userId", (7 : Nat))] = some [7] ∧
    boundQueryArguments
      ([("self", none), ("userId", none)] : List (String × Option Nat))
      [7] [] ["userId"] = some [7] :=
  claim7_placeholder_rendering
    [Seg.lit "SELECT name FROM users WHERE id = ", Seg.hole "userId"]
    (by decide)

/-- The recorded placeholder order does not depend on the dialect token: only
the rendered text does. -/
theorem formatMapAux_names_independent (t1 t2 : List Char) :
    ∀ (s : List Char) (mode : FmtMode),
      (formatMapAux t1 s mode).map Prod.snd =
        (formatMapAux t2 s mode).map Prod.snd := by
  intro s
  induction s with
  | nil => intro mode; cases mode <;> rfl
  | cons c cs ih =>
      intro mode
      cases mode with
      | text =>
          by_cases hc : c = '\x7b'
          · simp only [formatMapAux, if_pos hc]
            exact ih (FmtMode.field [])
          · simp only [formatMapAux, if_neg hc]
            have hrec := ih FmtMode.text
            rcases h1 : formatMapAux t1 cs FmtMode.text with _ | p1 <;>
              rcases h2 : formatMapAux t2 cs FmtMode.text with _ | p2 <;>
              rw [h1, h2] at hrec <;> simp_all
      | field acc =>
          by_cases hc : c = '\x7d'
          · simp only [formatMapAux, if_pos hc]
            have hrec := ih FmtMode.text
            rcases h1 : formatMapAux t1 cs FmtMode.text with _ | p1 <;>
              rcases h2 : formatMapAux t2 cs FmtMode.text with _ | p2 <;>
              rw [h1, h2] at hrec <;> simp_all
          · simp only [formatMapAux, if_neg hc]
            exact ih (FmtMode.field (acc ++ [c]))

/-- String-level corollary of token independence: two successful renderings
of one template record identical placeholder orders. -/
theorem formatMap_names_independent (t1 t2 sql s1 s2 : String)
    (n1 n2 : List String) (h1 : formatMap t1 sql = some (s1, n1))
    (h2 : formatMap t2 sql = some (s2, n2)) : n1 = n2 := by
  have hrec := formatMapAux_names_independent t1.data t2.data sql.data
    FmtMode.text
  unfold formatMap at h1 h2
  rcases ha : formatMapAux t1.data sql.data FmtMode.text with _ | p1 <;>
    rw [ha] at h1 hrec
  · simp at h1
  · rcases hb : formatMapAux t2.data sql.data FmtMode.text with _ | p2 <;>
      rw [hb] at h2 hrec
    · simp at hrec
    · simp at h1 h2 hrec
      rw [← h1.2, ← h2.2, hrec]

/-- Python set equality of name lists gives equality of their finsets. -/
theorem sameSet_toFinset {a b : List String} (h : sameSet a b = true) :
    a.toFinset = b.toFinset := by
  simp only [sameSet, Bool.and_eq_true, List.all_eq_true,
    decide_eq_true_eq] at h
  ext x
  simp only [List.mem_toFinset]
  exact ⟨fun hx => h.1 x hx, fun hx => h.2 x hx⟩

/-- Counterexample to claim C8 as stated: the declaration whose template uses
the placeholder `a` twice over the single non-receiver parameter `a` is
accepted by `setOn` (the name sets agree), but its qmark rendering's
placeholder order `[a, a]` is not, as a multiset, equal to the declaration's
parameter list `[a]` — the multisets differ in multiplicity. -/
theorem claim8_counterexample :
    setOn Nat "SELECT {a}, {a}" ["self", "a"] =
      Except.ok [("qmark", Rendering.mk "SELECT ?, ?" ["a", "a"]),
        ("pyformat", Rendering.mk "SELECT %s, %s" ["a", "a"])] ∧
    ¬ (["a", "a"] : List String).Perm (["self", "a"].drop 1) := by
  refine ⟨rfl, ?_⟩
  intro hperm
  have := hperm.length_eq
  simp at this

/-- Claim C8 as amended: for every accepted declaration, the qmark and
pyformat renderings record the identical placeholder order, so the positional
argument lists extracted from the same bound arguments in each rendering's
own recorded order coincide; and each rendering's placeholder order has the
same set of names as the declaration's non-receiver parameters (equality as a
multiset fails when a placeholder repeats, as the counterexample shows). -/
theorem claim8_dialect_consistency {V : Type} (sql : String)
    (sigNames : List String) (qs ps : String) (qn pn : List String)
    (bound : List (String × V))
    (hq : formatMap "?" sql = some (qs, qn))
    (hp : formatMap "%s" sql = some (ps, pn))
    (haccept : sameSet qn (sigNames.drop 1) = true) :
    qn = pn ∧
    queryArguments qn bound = queryArguments pn bound ∧
    qn.toFinset = (sigNames.drop 1).toFinset ∧
    pn.toFinset = (sigNames.drop 1).toFinset ∧
    setOn V sql sigNames = Except.ok [("qmark", Rendering.mk qs qn),
      ("pyformat", Rendering.mk ps pn)] := by
  have hnames := formatMap_names_independent "?" "%s" sql qs ps qn pn hq hp
  have hfin := sameSet_toFinset haccept
  refine ⟨hnames, by rw [hnames], hfin, by rw [← hnames]; exact hfin, ?_⟩
  have haccept2 : sameSet qn sigNames.tail = true := by
    rw [← List.drop_one]
    exact haccept
  simp [setOn, precompute, hq, hp, List.lookup, haccept2]

/-- Witness for the amended C8 at the duplicated-placeholder declaration. -/
theorem claim8_amended_witness :
    (["a", "a"] : List String) = ["a", "a"] ∧
    queryArguments ["a", "a"] [("a", (3 : Nat))] =
      queryArguments ["a", "a"] [("a", (3 : Nat))] ∧
    (["a", "a"] : List String).toFinset =
      (["self", "a"].drop 1).toFinset ∧
    (["a", "a"] : List String).toFinset =
      (["self", "a"].drop 1).toFinset ∧
    setOn Nat "SELECT {a}, {a}" ["self", "a"] =
      Except.ok [("qmark", Rendering.mk "SELECT ?, ?" ["a", "a"]),
        ("pyformat", Rendering.mk "SELECT %s, %s" ["a", "a"])] :=
  claim8_dialect_consistency "SELECT {a}, {a}" ["self", "a"]
    "SELECT ?, ?" "SELECT %s, %s" ["a", "a"] ["a", "a"]
    [("a", (3 : Nat))] rfl rfl rfl

/-- After `apply_defaults`, a parameter that the call left unbound and that
declares a default resolves to that default (parameter names are unique in a
signature). -/
theorem lookupArg_applyDefaults {V : Type} :
    ∀ (params : List (String × Option V)) (b : List (String × V))
      (name : String) (d : V),
      (params.map Prod.fst).Nodup → (name, some d) ∈ params →
      lookupArg b name = none →
      lookupArg (applyDefaults params b) name = some d := by
  intro params
  induction params with
  | nil =>
      intro b name d hnd hmem hmiss
      simp at hmem
  | cons p ps ih =>
      intro b name d hnd hmem hmiss
      obtain ⟨pn, pd⟩ := p
      simp only [List.map_cons, List.nodup_cons] at hnd
      rcases List.mem_cons.mp hmem with heq | htail
      · obtain ⟨h1, h2⟩ := Prod.mk.inj heq
        subst h1
        subst h2
        simp [applyDefaults, List.filterMap_cons, hmiss, lookupArg]
      · have hpn : pn ≠ name := by
          intro hcontra
          subst hcontra
          exact hnd.1 (List.mem_map.mpr ⟨(pn, some d), htail, rfl⟩)
        have hrec := ih b name d hnd.2 htail hmiss
        simp only [applyDefaults] at hrec ⊢
        simp only [List.filterMap_cons]
        rcases hlb : lookupArg b pn with _ | v
        · rcases pd with _ | dv
          · simpa [hlb] using hrec
          · simpa [hlb, lookupArg, hpn] using hrec
        · simpa [hlb, lookupArg, hpn] using hrec

/-- The positional parameter list extracted by `queryArguments` has one value
per recorded name, and the value at each position is the bound argument of
the name recorded there. -/
theorem queryArguments_index {V : Type} :
    ∀ (names : List String) (bound : List (String × V)) (qargs : List V),
      queryArguments names bound = some qargs →
      qargs.length = names.length ∧
      ∀ (i : Nat) (n : String), names[i]? = some n →
        qargs[i]? = lookupArg bound n := by
  intro names
  induction names with
  | nil =>
      intro bound qargs h
      simp [queryArguments] at h
      subst h
      refine ⟨rfl, ?_⟩
      intro i n hn
      simp at hn
  | cons m ms ih =>
      intro bound qargs h
      simp only [queryArguments] at h
      rcases hl : lookupArg bound m with _ | v <;> rw [hl] at h
      · simp at h
      · rcases hr : queryArguments ms bound with _ | vs <;> rw [hr] at h
        · simp at h
        · simp at h
          subst h
          obtain ⟨hlen, hidx⟩ := ih bound vs hr
          refine ⟨by simp [hlen], ?_⟩
          intro i n hn
          rcases i with _ | j
          · simp at hn
            subst hn
            simp [hl]
          · simp at hn ⊢
            exact hidx j n hn

/-- Claim C10: when a call omits an argument for a method parameter that
declares a default value, the default is applied (by `apply_defaults`) before
`queryArguments` extracts the positional parameter list, so the list passed
to the driver carries the default value at every position where that
parameter's placeholder occurs in the rendering's recorded order. -/
theorem claim10_default_arguments {V : Type} (sig : List (String × Option V))
    (args : List V) (kw : List (String × V)) (b : List (String × V))
    (name : String) (d : V) (names : List String) (qargs : List V) (i : Nat)
    (hnodup : ((sig.drop 1).map Prod.fst).Nodup)
    (hbind : bindArguments (sig.drop 1) args kw = some b)
    (hmem : (name, some d) ∈ sig.drop 1)
    (homit : lookupArg b name = none)
    (hq : boundQueryArguments sig args kw names = some qargs)
    (hi : names[i]? = some name) :
    qargs[i]? = some d ∧ qargs.length = names.length := by
  unfold boundQueryArguments at hq
  rw [hbind] at hq
  obtain ⟨hlen, hidx⟩ := queryArguments_index names
    (applyDefaults (sig.drop 1) b) qargs hq
  have hdef := lookupArg_applyDefaults (sig.drop 1) b name d hnodup hmem homit
  exact ⟨(hidx i name hi).trans hdef, hlen⟩

/-- Witness for C10: a signature whose parameter `x` defaults to `5`, called
with no arguments; the placeholder order mentions `x` twice and both driver
positions receive the default. -/
theorem claim10_witness :
    ((boundQueryArguments
      ([("self", none), ("x", some 5)] : List (String × Option Nat))
      [] [] ["x", "x"]).getD [])[0]? = some 5 ∧
    ((boundQueryArguments
      ([("self", none), ("x", some 5)] : List (String × Option Nat))
      [] [] ["x", "x"]).getD [])[1]? = some 5 ∧
    ((boundQueryArguments
      ([("self", none), ("x", some 5)] : List (String × Option Nat))
      [] [] ["x", "x"]).getD []).length = 2 := by
  have h0 := claim10_default_arguments
    ([("self", none), ("x", some 5)] : List (String × Option Nat))
    [] [] [] "x" 5 ["x", "x"] [5, 5] 0 (by simp) rfl (by simp) rfl rfl rfl
  have h1 := claim10_default_arguments
    ([("self", none), ("x", some 5)] : List (String × Option Nat))
    [] [] [] "x" 5 ["x", "x"] [5, 5] 1 (by simp) rfl (by simp) rfl rfl rfl
  exact ⟨h0.1, h1.1, h0.2⟩

/-- Claim C1 evaluated at the failing input: a one-cardinality proxy call
whose statement yields zero rows propagates `NotEnoughResults` to the caller
with the cursor's close count still zero — `body()` has no try/finally, so
`await cur.close()` after the awaited translator is skipped on failure.  For
contrast, the same call over a one-row result set closes the cursor exactly
once, and an abandoned many-cardinality iteration closes it exactly once. -/
theorem claim1_cursor_leak_on_failure :
    (runSingleCall (Rendering.mk "SELECT * FROM t" [])
      ([("self", none)] : List (String × Option Nat))
      (one (ExceptionFixer.create 10 20)
        (fun (_ : Unit) (_ : List Nat) => Except.ok 0)) () [] [] []).1 =
      Except.error DbError.notEnoughResults ∧
    (runSingleCall (Rendering.mk "SELECT * FROM t" [])
      ([("self", none)] : List (String × Option Nat))
      (one (ExceptionFixer.create 10 20)
        (fun (_ : Unit) (_ : List Nat) => Except.ok 0)) () [] [] []).2.closed
      = 0 ∧
    (runSingleCall (Rendering.mk "SELECT * FROM t" [])
      ([("self", none)] : List (String × Option Nat))
      (one (ExceptionFixer.create 10 20)
        (fun (_ : Unit) (_ : List Nat) => Except.ok 0)) () [] []
      [[7]]).2.closed = 1 ∧
    (runManyCall (Rendering.mk "SELECT * FROM t" [])
      ([("self", none)] : List (String × Option Nat))
      (ExceptionFixer.create 10 20)
      (fun (_ : Unit) (_ : List Nat) => Except.ok 0) () [] [] [[7], [8]]
      1).2.closed = 1 := by
  refine ⟨?_, ?_, ?_, ?_⟩ <;> rfl

end Dbxs
